import Mathlib

/-!
Verification of the database-handle layer (`c4Database.cc`) and the BLIP
streaming codec (`Codec.cc`) of couchbase-lite-core, via a shallow embedding.

Conventions of the embedding:
* C++ code that throws is modelled with `Except CError`; an exception carries
  no mutated state unless a claim depends on it (then the state is returned
  alongside the error, as in `readAndVerifyChecksum`).
* `size_t` / `unsigned` arithmetic is modelled on `Nat` with explicit
  `% 2^64` / `% 2^32` where the C code can wrap or truncate.
* The filesystem touched by bundle resolution is abstracted to the one
  bundle directory the code inspects: a flag for the directory itself and
  the list of file names it holds.
* zlib is an external dependency; it is modelled as an abstract engine
  (`ZEngine`) whose documented contract is captured by the predicate
  `ZEngineWF`.  CRC-32 is the standard zlib polynomial, implemented
  bitwise.
-/

namespace LC

/-- Error taxonomy of `error::_throw` as observed at the C boundary.
`assertionFailed` models a failed `Assert(...)`; `notADirectory` models
`FilePath::mustExistAsDir` failing. For zlib failures the formatted message
`"zlib error %d: %s"` is abstracted to a fixed string. -/
inductive CError where
  | invalidParameter
  | wrongFormat
  | busy
  | notInTransaction
  | transactionNotClosed
  | unimplemented
  | notADirectory
  | corruptData (msg : String)
  | assertionFailed
deriving DecidableEq

/-! ## Database configuration and bundle resolution (c4Database.cc 30-116) -/

def kC4ForestDBStorageEngine : String := r"ForestDB"

def kC4SQLiteStorageEngine : String := r"SQLite"

def kForestDatabaseName : String := r"db.forestdb"

def kSQLiteDatabaseName : String := r"db.sqlite3"

/-- Model of `C4DatabaseConfig`: the flag bits are modelled as booleans, the
nullable `const char *storageEngine` as an `Option String`, and the
encryption algorithm selector as a `Nat` (0 = kNoEncryption). -/
structure C4DatabaseConfig where
  create : Bool
  readOnly : Bool
  bundled : Bool
  v2Format : Bool
  storageEngine : Option String
  encryptionAlgorithm : Nat
deriving DecidableEq

/-- The bundle directory as the code observes it: whether the directory
exists, and which file names it contains. -/
structure BundleFS where
  dirExists : Bool
  files : List String
deriving DecidableEq

/-- Model of `c4Database::findOrCreateBundle` (c4Database.cc 41-76).  Returns the
chosen db file name, the updated config (the code updates
`config.storageEngine` in place), and the filesystem after a possible
`mkdir`. -/
def findOrCreateBundle (fs : BundleFS) (config : C4DatabaseConfig) :
    Except CError (String × C4DatabaseConfig × BundleFS) :=
  let createdDir := config.create && !fs.dirExists
  let fs1 : BundleFS := if createdDir then { fs with dirExists := true } else fs
  if !createdDir && !fs1.dirExists then
    Except.error CError.notADirectory
  else
    let pick : Except CError String :=
      match config.storageEngine with
      | none => Except.ok kSQLiteDatabaseName
      | some e =>
        if e = kC4SQLiteStorageEngine then Except.ok kSQLiteDatabaseName
        else if e = kC4ForestDBStorageEngine then Except.ok kForestDatabaseName
        else Except.error CError.invalidParameter
    match pick with
    | Except.error e => Except.error e
    | Except.ok filename =>
      if createdDir || fs1.files.contains filename then
        let fixedEngine := config.storageEngine.getD kC4SQLiteStorageEngine
        Except.ok (filename, { config with storageEngine := some fixedEngine }, fs1)
      else if config.storageEngine.isSome then
        Except.error CError.wrongFormat
      else if fs1.files.contains kForestDatabaseName then
        Except.ok (kForestDatabaseName,
          { config with storageEngine := some kC4ForestDBStorageEngine }, fs1)
      else
        Except.error CError.wrongFormat

/-- Which `DataFile` subclass `newDataFile` instantiates. -/
inductive DataFileKind where
  | forest
  | sqlite
deriving DecidableEq

structure KeyStoreOptions where
  sequences : Bool
  softDeletes : Bool
  getByOffset : Bool
deriving DecidableEq

/-- Model of `DataFile::Options` as assembled by `newDataFile`. -/
structure DataFileOptions where
  keyStores : KeyStoreOptions
  create : Bool
  writeable : Bool
  encryptionAlgorithm : Nat
deriving DecidableEq

structure DataFile where
  kind : DataFileKind
  path : String
  options : DataFileOptions
deriving DecidableEq

/-- Model of `c4Database::newDataFile` (c4Database.cc 90-116).  Note the backend
dispatch: a null `storageEngine` or `"ForestDB"` yields the ForestDB data
file; `"SQLite"` yields the SQLite one; anything else throws
`error::Unimplemented`. -/
def newDataFile (path : String) (config : C4DatabaseConfig) (isMainDB : Bool) :
    Except CError DataFile :=
  let opts : DataFileOptions :=
    { keyStores :=
        if isMainDB then
          { sequences := true, softDeletes := true
            getByOffset := !config.v2Format }
        else
          { sequences := false, softDeletes := false, getByOffset := false }
      create := config.create
      writeable := !config.readOnly
      encryptionAlgorithm := config.encryptionAlgorithm }
  match config.storageEngine with
  | none => Except.ok { kind := DataFileKind.forest, path := path, options := opts }
  | some e =>
    if e = kC4ForestDBStorageEngine then
      Except.ok { kind := DataFileKind.forest, path := path, options := opts }
    else if e = kC4SQLiteStorageEngine then
      Except.ok { kind := DataFileKind.sqlite, path := path, options := opts }
    else
      Except.error CError.unimplemented

/-- Model of `c4Database::newDatabase` (c4Database.cc 79-87) composed with the
`c4Database` constructor (119-123), which opens the main data file via
`newDataFile`.  For a bundled config the path and the config's storage
engine come from `findOrCreateBundle`. -/
def newDatabase (fs : BundleFS) (pathStr : String) (config : C4DatabaseConfig) :
    Except CError (DataFile × C4DatabaseConfig × BundleFS) :=
  if config.bundled then
    match findOrCreateBundle fs config with
    | Except.error e => Except.error e
    | Except.ok (file, config1, fs1) =>
      match newDataFile file config1 true with
      | Except.error e => Except.error e
      | Except.ok df => Except.ok (df, config1, fs1)
  else
    match newDataFile pathStr config true with
    | Except.error e => Except.error e
    | Except.ok df => Except.ok (df, config, fs)

/-! ## The handle: delete and nested transactions (c4Database.cc 132-181, 244-256) -/

/-- The observable state of a `c4Database` handle used by `c4db_delete`:
its reference count, its transaction nesting level, and whether
`deleteDataFile()` has been invoked on the underlying data file. -/
structure C4DatabaseHandle where
  refCount : Nat
  transactionLevel : Nat
  dataFileDeleted : Bool
deriving DecidableEq

/-- Model of `c4Database::inTransaction` (c4Database.cc 142-147). -/
def inTransaction (db : C4DatabaseHandle) : Bool :=
  decide (0 < db.transactionLevel)

/-- Model of `c4db_delete` (c4Database.cc 244-256).  Returns the C return value,
the error recorded into `outError` (if any), and the resulting handle
state.  Note the source records `kC4ErrorBusy` when `refCount() > 1` but
falls through to `deleteDataFile()` and `return true` anyway. -/
def c4db_delete (db : C4DatabaseHandle) : Bool × Option CError × C4DatabaseHandle :=
  if inTransaction db then
    (false, some CError.transactionNotClosed, db)
  else
    let err := if 1 < db.refCount then some CError.busy else none
    (true, err, { db with dataFileDeleted := true })

/-- Outcome of the underlying DataFile `Transaction` when it is destroyed
by the outermost `endTransaction`. -/
inductive TxnOutcome where
  | committed
  | aborted
deriving DecidableEq

/-- Model of `c4Database::beginTransaction` (c4Database.cc 132-140): increments the
nesting level (the underlying `Transaction` object is created at level 1;
its identity does not matter for the claims). -/
def beginTransaction (level : Nat) : Nat := level + 1

/-- Model of `c4Database::endTransaction` (c4Database.cc 163-181).  Returns the
boolean result, the new nesting level, and the outcome inflicted on the
underlying `Transaction` when the level returns to zero (`t->abort()` is
called iff `commit` is false; `delete t` then commits unless aborted). -/
def endTransaction (level : Nat) (commit : Bool) : Bool × Nat × Option TxnOutcome :=
  if level = 0 then
    (false, 0, none)
  else if level - 1 = 0 then
    (true, 0, some (if commit then TxnOutcome.committed else TxnOutcome.aborted))
  else
    (true, level - 1, none)

/-- A begin/end event against one handle (`endTx c` carries the `commit`
argument). -/
inductive TxnEvent where
  | beginTx
  | endTx (commit : Bool)
deriving DecidableEq

/-- Run a sequence of begin/end events from a given nesting level,
collecting the outcomes of the underlying transactions in order. -/
def runTxnEvents : List TxnEvent → Nat → Nat × List TxnOutcome
  | [], level => (level, [])
  | TxnEvent.beginTx :: rest, level => runTxnEvents rest (beginTransaction level)
  | TxnEvent.endTx c :: rest, level =>
    let step := endTransaction level c
    let tail := runTxnEvents rest step.2.1
    (tail.1, step.2.2.toList ++ tail.2)

/-- The balanced nested sequence `begin^(n+1); end(b₁); …; end(bₙ); end(b)`
where `bs = [b₁, …, bₙ]` are the flags of the inner (non-outermost) ends
and `b` is the outermost end's flag. -/
def nestedSeq (bs : List Bool) (b : Bool) : List TxnEvent :=
  List.replicate (bs.length + 1) TxnEvent.beginTx ++
    bs.map TxnEvent.endTx ++ [TxnEvent.endTx b]

/-! ## CRC-32 (the zlib `crc32` dependency)

The standard reflected CRC-32 (polynomial 0xEDB88320, pre/post inversion
with 0xFFFFFFFF), computed bitwise.  `crc32 crc bs` matches zlib's
`crc32(crc, buf, len)`; in particular `crc32 0 [] = 0`, the codec's
required initial value (Codec.cc 49-52). -/

def crc32Bit (c : Nat) : Nat :=
  if c % 2 = 1 then (c / 2) ^^^ 3988292384 else c / 2

def crc32Byte (c b : Nat) : Nat :=
  crc32Bit (crc32Bit (crc32Bit (crc32Bit
    (crc32Bit (crc32Bit (crc32Bit (crc32Bit (c ^^^ b % 256))))))))

def crc32 (c : Nat) (bs : List Nat) : Nat :=
  (bs.foldl crc32Byte (c ^^^ 4294967295)) ^^^ 4294967295

/-- Model of `Codec::addToChecksum` (Codec.cc 55-57). -/
def addToChecksum (checksum : Nat) (data : List Nat) : Nat :=
  crc32 checksum data

/-! ## Checksum framing (Codec.cc 59-74) -/

def kChecksumSize : Nat := 4

/-- Modelled from the spec: `endian::dec32` (Endian.hh, not in the source
excerpt) decodes a 4-byte big-endian value, per the spec's "4-byte
big-endian CRC32". -/
def dec32 (bs : List Nat) : Nat :=
  bs.foldl (fun acc b => acc * 256 + b % 256) 0

def msgEndsBeforeChecksum : String := r"BLIP message ends before checksum"

def msgInvalidChecksum : String := r"BLIP message invalid checksum"

/-- Model of `Codec::readAndVerifyChecksum` (Codec.cc 65-74).  The input slice is
passed by reference in C++, so its post-state survives a throw; the model
returns the resulting input alongside the result.  The guard throws before
`readInto`, so a short input is left unconsumed; on a mismatch the four
bytes have already been consumed. -/
def readAndVerifyChecksum (checksum : Nat) (input : List Nat) :
    Except CError Unit × List Nat :=
  if input.length < kChecksumSize then
    (Except.error (CError.corruptData msgEndsBeforeChecksum), input)
  else
    let chk := dec32 (input.take kChecksumSize)
    let rest := input.drop kChecksumSize
    if chk ≠ checksum then
      (Except.error (CError.corruptData msgInvalidChecksum), rest)
    else
      (Except.ok (), rest)

/-! ## The zlib engine abstraction

`Codec.cc` drives zlib through `_flate` (`::deflate` / `::inflate`),
`deflateBound` and `deflatePending`.  zlib itself is an external
dependency, so it is an abstract engine here.  `flate st mode window
availOut` receives exactly the window the codec exposes
(`next_in`/`avail_in`) and the available output count
(`next_out`/`avail_out`), and reports the bytes consumed from the window,
the bytes produced into the output, and the zlib return code.
`pendingCount` models `deflatePending`'s `bytes + (bits > 0)` as one
number (Codec.cc 194-209). -/

structure FlateResult (S : Type) where
  state : S
  consumed : Nat
  produced : List Nat
  ret : Int
deriving DecidableEq

structure ZEngine (S : Type) where
  flate : S → Nat → List Nat → Nat → FlateResult S
  deflateBound : S → Nat → Nat
  pendingCount : S → Nat

/-- Model of `Codec::Mode` (declared in Codec.hh; its members and their order are
fixed by Codec.cc's uses: `Assert(mode > Mode::Raw)` and the zlib flush
constants `Z_NO_FLUSH < Z_PARTIAL_FLUSH < Z_SYNC_FLUSH` the enum wraps,
matching the spec's four flush modes). -/
inductive Mode where
  | Raw
  | NoFlush
  | PartialFlush
  | SyncFlush
deriving DecidableEq

/-- The integer flush constant a mode passes to zlib (`(int)mode`). -/
def Mode.flushCode : Mode → Nat
  | Mode.Raw => 0
  | Mode.NoFlush => 0
  | Mode.PartialFlush => 1
  | Mode.SyncFlush => 2

/-- Model of `SIZE_MAX`, the default of `_write`'s `maxInput` parameter
(declared in Codec.hh). -/
def sizeMax : Nat := 18446744073709551615

/-- Model of `size_t` subtraction `a - b` with wrap-around (used for
`output.size - kHeadroomForFlush`, which underflows when the output holds
fewer than 12 bytes). -/
def sizeSub (a b : Nat) : Nat :=
  (a + (18446744073709551616 - b % 18446744073709551616)) % 18446744073709551616

/-- The documented zlib contract the codec relies on, as hypotheses on the
abstract engine:
* `consumed_le` / `produced_le` — the cursor discipline: zlib never reads
  past `avail_in` nor writes past `avail_out`;
* `progress` — with input available and output room, a (non-raw) call
  consumes or produces at least one byte (zlib only stalls with
  `Z_BUF_ERROR` when no progress is possible, which cannot happen here);
* `bound_guarantee` — a sync-flush call whose output room is at least
  `deflateBound` of the input consumes all of it and completes the flush
  (nothing left pending), per zlib's `deflateBound` contract;
* `sync_clears` — a sync-flush call that consumed its whole window and
  returned with output room to spare (`avail_out > 0`) has completed the
  flush, per the zlib manual's flush-completion rule. -/
structure ZEngineWF {S : Type} (eng : ZEngine S) : Prop where
  consumed_le : ∀ s m w a, (eng.flate s m w a).consumed ≤ w.length
  produced_le : ∀ s m w a, (eng.flate s m w a).produced.length ≤ a
  progress : ∀ s m w a, w ≠ [] → 0 < a →
    0 < (eng.flate s m w a).consumed + (eng.flate s m w a).produced.length
  bound_guarantee : ∀ s w a, eng.deflateBound s w.length ≤ a →
    (eng.flate s Mode.SyncFlush.flushCode w a).consumed = w.length ∧
    eng.pendingCount (eng.flate s Mode.SyncFlush.flushCode w a).state = 0
  sync_clears : ∀ s w a,
    (eng.flate s Mode.SyncFlush.flushCode w a).consumed = w.length →
    (eng.flate s Mode.SyncFlush.flushCode w a).produced.length < a →
    eng.pendingCount (eng.flate s Mode.SyncFlush.flushCode w a).state = 0

/-! ## ZlibCodec::_write (Codec.cc 96-117) -/

/-- The record of one engine call, for stating trace properties:
the mode and `maxInput` the codec passed, the input length and output room
before the call, the window it exposed to the engine, and what the engine
consumed/produced. -/
structure CallRec where
  mode : Mode
  maxInput : Nat
  inBefore : Nat
  windowLen : Nat
  outBefore : Nat
  consumed : Nat
  producedLen : Nat
  outAfter : Nat
deriving DecidableEq

structure ZWriteOut (S : Type) where
  state : S
  input : List Nat
  produced : List Nat
  outRem : Nat
  call : CallRec
deriving DecidableEq

/-- Model of `ZlibCodec::_write` (Codec.cc 96-117): truncates
`min(input.size, maxInput)` and `output.size` to `unsigned`, asserts a
non-empty output and a non-raw mode, runs one engine call, and advances
both cursors.  (`check` runs after the cursor updates; on a zlib error the
model returns only the error.)  `kZlibRawDeflate` is true, so the adler
checksum is never copied. -/
def zwrite {S : Type} (eng : ZEngine S) (s : S) (input : List Nat) (outRem : Nat)
    (mode : Mode) (maxInput : Nat) : Except CError (ZWriteOut S) :=
  let availIn := (min input.length maxInput) % 4294967296
  let availOut := outRem % 4294967296
  if availOut = 0 then
    Except.error CError.assertionFailed
  else if mode = Mode.Raw then
    Except.error CError.assertionFailed
  else
    let window := input.take availIn
    let r := eng.flate s mode.flushCode window availOut
    let outRem1 := outRem - r.produced.length
    if r.ret < 0 ∧ r.ret ≠ -5 then
      Except.error (CError.corruptData r"zlib error")
    else
      Except.ok
        { state := r.state
          input := input.drop r.consumed
          produced := r.produced
          outRem := outRem1
          call :=
            { mode := mode, maxInput := maxInput, inBefore := input.length
              windowLen := window.length, outBefore := outRem
              consumed := r.consumed, producedLen := r.produced.length
              outAfter := outRem1 } }

/-! ## Codec::_writeRaw (Codec.cc 78-86) -/

/-- Model of `Codec::_writeRaw`: asserts a non-empty output, copies
`min(|input|, |output|)` bytes, folds them into the checksum, and advances
both cursors.  Returns (checksum', remaining input, remaining output room,
bytes copied). -/
def writeRaw (checksum : Nat) (input : List Nat) (outRem : Nat) :
    Except CError (Nat × List Nat × Nat × List Nat) :=
  if outRem = 0 then
    Except.error CError.assertionFailed
  else
    let count := min input.length outRem
    let chunk := input.take count
    Except.ok (addToChecksum checksum chunk, input.drop count, outRem - count, chunk)

/-! ## Deflater::_writeAndFlush (Codec.cc 164-191) -/

def kHeadroomForFlush : Nat := 12

def kStopAtOutputSize : Nat := 100

/-- One loop iteration's record together with the `deflateBound` value the
branch condition compared against. -/
structure LoopRec where
  call : CallRec
  boundVal : Nat
deriving DecidableEq

structure FlushLoopOut (S : Type) where
  state : S
  input : List Nat
  outRem : Nat
  produced : List Nat
  trace : List LoopRec
  curMode : Mode
  diverged : Bool
deriving DecidableEq

/-- The `while (input.size > 0)` loop of `Deflater::_writeAndFlush`
(Codec.cc 172-185), with explicit fuel: the C loop can only fail to
terminate if the engine makes no progress forever (zlib cannot), and
`diverged = true` marks fuel exhaustion.  `curMode` is the running
`curMode` variable (initially `PartialFlush`, set to `SyncFlush` by the
guaranteed-fit branch). -/
def writeAndFlushLoop {S : Type} (eng : ZEngine S) :
    Nat → S → List Nat → Nat → Mode → Except CError (FlushLoopOut S)
  | 0, s, input, outRem, curMode =>
    Except.ok { state := s, input := input, outRem := outRem, produced := []
                trace := [], curMode := curMode, diverged := true }
  | fuel + 1, s, input, outRem, curMode =>
    if input.length = 0 then
      Except.ok { state := s, input := input, outRem := outRem, produced := []
                  trace := [], curMode := curMode, diverged := false }
    else
      let bnd := eng.deflateBound s (input.length % 4294967296)
      let fits := bnd ≤ outRem
      let m := if fits then Mode.SyncFlush else curMode
      let mi := if fits then sizeMax else sizeSub outRem kHeadroomForFlush
      match zwrite eng s input outRem m mi with
      | Except.error e => Except.error e
      | Except.ok w =>
        let lr : LoopRec := { call := w.call, boundVal := bnd }
        if w.outRem ≤ kStopAtOutputSize then
          Except.ok { state := w.state, input := w.input, outRem := w.outRem
                      produced := w.produced, trace := [lr], curMode := m
                      diverged := false }
        else
          match writeAndFlushLoop eng fuel w.state w.input w.outRem m with
          | Except.error e => Except.error e
          | Except.ok rest =>
            Except.ok { state := rest.state, input := rest.input
                        outRem := rest.outRem
                        produced := w.produced ++ rest.produced
                        trace := lr :: rest.trace, curMode := rest.curMode
                        diverged := rest.diverged }

structure FlushOut (S : Type) where
  state : S
  input : List Nat
  outRem : Nat
  produced : List Nat
  loopTrace : List LoopRec
  finalCall : Option CallRec
  diverged : Bool
deriving DecidableEq

/-- Model of `Deflater::_writeAndFlush` (Codec.cc 164-191): the loop above followed
by, when no sync-flush step was taken (`curMode != Mode::SyncFlush`), one
final sync-flush call with `maxInput = 0`. -/
def writeAndFlush {S : Type} (eng : ZEngine S) (s : S) (input : List Nat)
    (outRem : Nat) : Except CError (FlushOut S) :=
  match writeAndFlushLoop eng (input.length + outRem + 1) s input outRem
      Mode.PartialFlush with
  | Except.error e => Except.error e
  | Except.ok lo =>
    if lo.diverged then
      Except.ok { state := lo.state, input := lo.input, outRem := lo.outRem
                  produced := lo.produced, loopTrace := lo.trace
                  finalCall := none, diverged := true }
    else if lo.curMode ≠ Mode.SyncFlush then
      match zwrite eng lo.state lo.input lo.outRem Mode.SyncFlush 0 with
      | Except.error e => Except.error e
      | Except.ok w =>
        Except.ok { state := w.state, input := w.input, outRem := w.outRem
                    produced := lo.produced ++ w.produced
                    loopTrace := lo.trace, finalCall := some w.call
                    diverged := false }
    else
      Except.ok { state := lo.state, input := lo.input, outRem := lo.outRem
                  produced := lo.produced, loopTrace := lo.trace
                  finalCall := none, diverged := false }

/-! ## Deflater::write and Inflater::write (Codec.cc 140-161, 227-240) -/

/-- The codec-instance state a write threads: the zlib stream state and
the plaintext CRC-32 accumulator. -/
structure CodecState (S : Type) where
  z : S
  checksum : Nat
deriving DecidableEq

/-- The observable result of one `write` call: the new codec state, the
remaining input, the remaining output room, the bytes written to the
output, and (for the sync-flush path) the engine-call trace. -/
structure WriteOut (S : Type) where
  st : CodecState S
  input : List Nat
  outRem : Nat
  produced : List Nat
  loopTrace : List LoopRec
  finalCall : Option CallRec
  diverged : Bool
deriving DecidableEq

/-- Model of `Deflater::write` (Codec.cc 140-161): `Raw` forwards to `_writeRaw`;
`NoFlush` runs one engine call (default `maxInput = SIZE_MAX`);
`SyncFlush` runs `_writeAndFlush`; any other mode throws
`InvalidParameter`.  Afterwards (`kZlibRawDeflate`) exactly the consumed
input bytes — the region between the original and the advanced input
cursor — are folded into the checksum. -/
def Deflater.write {S : Type} (eng : ZEngine S) (st : CodecState S)
    (input : List Nat) (outRem : Nat) (mode : Mode) :
    Except CError (WriteOut S) :=
  match mode with
  | Mode.Raw =>
    match writeRaw st.checksum input outRem with
    | Except.error e => Except.error e
    | Except.ok (ck, input1, outRem1, chunk) =>
      Except.ok { st := { z := st.z, checksum := ck }, input := input1
                  outRem := outRem1, produced := chunk, loopTrace := []
                  finalCall := none, diverged := false }
  | Mode.NoFlush =>
    match zwrite eng st.z input outRem Mode.NoFlush sizeMax with
    | Except.error e => Except.error e
    | Except.ok w =>
      let k := input.length - w.input.length
      Except.ok { st := { z := w.state
                          checksum := addToChecksum st.checksum (input.take k) }
                  input := w.input, outRem := w.outRem, produced := w.produced
                  loopTrace := [], finalCall := none, diverged := false }
  | Mode.SyncFlush =>
    match writeAndFlush eng st.z input outRem with
    | Except.error e => Except.error e
    | Except.ok fo =>
      let k := input.length - fo.input.length
      Except.ok { st := { z := fo.state
                          checksum := addToChecksum st.checksum (input.take k) }
                  input := fo.input, outRem := fo.outRem
                  produced := fo.produced, loopTrace := fo.loopTrace
                  finalCall := fo.finalCall, diverged := fo.diverged }
  | Mode.PartialFlush => Except.error CError.invalidParameter

/-- Model of `Deflater::unflushedBytes` (Codec.cc 194-209): `deflatePending`'s
byte count plus one if any bits are pending, i.e. the engine's
`pendingCount`. -/
def Deflater.unflushedBytes {S : Type} (eng : ZEngine S) (s : S) : Nat :=
  eng.pendingCount s

/-- Model of `Inflater::write` (Codec.cc 227-240): `Raw` forwards to `_writeRaw`;
otherwise one engine call, after which (`kZlibRawDeflate`) exactly the
bytes produced into the output — the region between the original and the
advanced output cursor — are folded into the checksum. -/
def Inflater.write {S : Type} (eng : ZEngine S) (st : CodecState S)
    (input : List Nat) (outRem : Nat) (mode : Mode) :
    Except CError (WriteOut S) :=
  match mode with
  | Mode.Raw =>
    match writeRaw st.checksum input outRem with
    | Except.error e => Except.error e
    | Except.ok (ck, input1, outRem1, chunk) =>
      Except.ok { st := { z := st.z, checksum := ck }, input := input1
                  outRem := outRem1, produced := chunk, loopTrace := []
                  finalCall := none, diverged := false }
  | m =>
    match zwrite eng st.z input outRem m sizeMax with
    | Except.error e => Except.error e
    | Except.ok w =>
      Except.ok { st := { z := w.state
                          checksum := addToChecksum st.checksum w.produced }
                  input := w.input, outRem := w.outRem, produced := w.produced
                  loopTrace := [], finalCall := none, diverged := false }

/-! ## Helper projections and write sequences -/

def exOk? {α : Type} : Except CError α → Option α
  | Except.ok a => some a
  | Except.error _ => none

def exErr? {α : Type} : Except CError α → Option CError
  | Except.ok _ => none
  | Except.error e => some e

/-- Run a sequence of `Deflater::write` calls, accumulating the plaintext
actually consumed from each call's input (the region the input cursor
moved over). -/
def Deflater.runWrites {S : Type} (eng : ZEngine S) :
    CodecState S → List Nat → List (Mode × List Nat × Nat) →
    Except CError (CodecState S × List Nat)
  | st, log, [] => Except.ok (st, log)
  | st, log, (m, inp, out) :: rest =>
    match Deflater.write eng st inp out m with
    | Except.error e => Except.error e
    | Except.ok w =>
      Deflater.runWrites eng w.st
        (log ++ inp.take (inp.length - w.input.length)) rest

/-- Run a sequence of `Inflater::write` calls, accumulating the plaintext
produced into each call's output. -/
def Inflater.runWrites {S : Type} (eng : ZEngine S) :
    CodecState S → List Nat → List (Mode × List Nat × Nat) →
    Except CError (CodecState S × List Nat)
  | st, log, [] => Except.ok (st, log)
  | st, log, (m, inp, out) :: rest =>
    match Inflater.write eng st inp out m with
    | Except.error e => Except.error e
    | Except.ok w => Inflater.runWrites eng w.st (log ++ w.produced) rest

def runCk {S : Type} (r : Except CError (CodecState S × List Nat)) : Option Nat :=
  (exOk? r).map (fun p => p.1.checksum)

def runLog {S : Type} (r : Except CError (CodecState S × List Nat)) :
    Option (List Nat) :=
  (exOk? r).map (fun p => p.2)

/-! ## Spec-side predicates for the sync-flush algorithm (spec §4.I) -/

/-- Spec step 3a/3b for one loop iteration, stated over its record, with
the input limit of the conservative branch being what the source computes:
`output.size - kHeadroomForFlush` in `size_t` arithmetic. -/
def LoopCallPolicy (r : LoopRec) : Prop :=
  (r.boundVal ≤ r.call.outBefore →
     r.call.mode = Mode.SyncFlush ∧ r.call.maxInput = sizeMax ∧
     r.call.consumed = r.call.inBefore) ∧
  (r.call.outBefore < r.boundVal →
     r.call.mode = Mode.PartialFlush ∧
     r.call.maxInput = sizeSub r.call.outBefore kHeadroomForFlush)

/-- Spec step 3c: every loop iteration after which the loop continued left
more than `kStopAtOutputSize` bytes of output room. -/
def Stops100 : List LoopRec → Prop
  | [] => True
  | [_] => True
  | a :: b :: t => kStopAtOutputSize < a.call.outAfter ∧ Stops100 (b :: t)

/-- Spec steps 3-4 for a whole sync-flush write, stated over the
(possibly failed) result: every loop call follows the branch policy, the
loop stops once output room is at or below the threshold, the final
zero-input sync-flush call happens exactly when no loop call sync-flushed,
and the loop terminated. -/
def SyncFlushTraceClaim {S : Type} (r : Except CError (WriteOut S)) : Prop :=
  ∀ w, r = Except.ok w →
    (∀ c ∈ w.loopTrace, LoopCallPolicy c) ∧
    Stops100 w.loopTrace ∧
    (w.finalCall = none ↔ ∃ c ∈ w.loopTrace, c.call.mode = Mode.SyncFlush) ∧
    (∀ c, w.finalCall = some c →
       c.mode = Mode.SyncFlush ∧ c.maxInput = 0 ∧ c.windowLen = 0 ∧
       c.consumed = 0) ∧
    w.diverged = false

/-- The engine call a successful write performed last (the final
zero-input flush when present, otherwise the last loop call). -/
def lastEngineCall {S : Type} (w : WriteOut S) : Option CallRec :=
  match w.finalCall with
  | some c => some c
  | none => (w.loopTrace.map LoopRec.call).getLast?

/-- Spec invariant 5, conditioned on the last engine call having returned
with output room to spare: `unflushed_bytes()` is zero after the write. -/
def UnflushedZeroClaim {S : Type} (eng : ZEngine S)
    (r : Except CError (WriteOut S)) : Prop :=
  ∀ w, r = Except.ok w →
    (∀ c, lastEngineCall w = some c → 0 < c.outAfter) →
    Deflater.unflushedBytes eng w.st.z = 0

/-- The output-cursor discipline of a write: it never trips the
output-nonempty assertion, and on success the output cursor advanced by
exactly the produced byte count, at most the output size. -/
def CursorClaim {S : Type} (outRem : Nat) (r : Except CError (WriteOut S)) :
    Prop :=
  exErr? r ≠ some CError.assertionFailed ∧
  ∀ w, r = Except.ok w →
    w.outRem + w.produced.length = outRem ∧ w.produced.length ≤ outRem

/-! ## Concrete engines for witnesses and counterexamples -/

/-- A conforming engine for witnesses: copies as much of its window as
fits into the output and keeps nothing buffered. -/
def copyEng : ZEngine Unit where
  flate := fun _ _ w a =>
    { state := (), consumed := min w.length a
      produced := w.take (min w.length a), ret := 0 }
  deflateBound := fun _ n => n + 13
  pendingCount := fun _ => 0

/-- A conforming engine whose state is its pending count: a partial-flush
call buffers its input (producing nothing, one extra byte pending), and a
sync-flush call needs `pending + window + 4` output bytes, emitting as
many as fit. -/
def cexFlate (s : Nat) (code : Nat) (w : List Nat) (a : Nat) : FlateResult Nat :=
  if code = 2 then
    if w.length + 13 ≤ a then
      { state := 0, consumed := w.length
        produced := List.replicate (min (w.length + s + 4) a) 0, ret := 0 }
    else
      { state := w.length + s + 4 - min (w.length + s + 4) a
        consumed := min w.length a
        produced := List.replicate (min (w.length + s + 4) a) 0, ret := 0 }
  else
    { state := s + w.length + 1, consumed := w.length, produced := [], ret := 0 }

def cexEngine : ZEngine Nat where
  flate := cexFlate
  deflateBound := fun _ n => n + 13
  pendingCount := fun s => s

/-- A conforming engine whose non-sync calls fill the whole output
buffer. -/
def cex2Flate (_ : Unit) (code : Nat) (w : List Nat) (a : Nat) :
    FlateResult Unit :=
  if code = 2 then
    { state := (), consumed := min w.length a
      produced := List.replicate (min w.length a) 0, ret := 0 }
  else
    { state := (), consumed := min w.length a
      produced := List.replicate a 0, ret := 0 }

def cex2Engine : ZEngine Unit where
  flate := cex2Flate
  deflateBound := fun _ n => n + 13
  pendingCount := fun _ => 0

def somePath : String := r"db"

def engOther : String := r"LevelDB"

/-! # Theorems -/

/-! ## C1: c4db_delete and the refcount guard -/

/-- C1: the claim says a delete on a handle whose refcount exceeds 1 fails
with `busy` and leaves the data file undeleted.  Evaluating `c4db_delete`
at a handle with refcount 2 and no open transaction shows the code records
`busy` into `outError` but nevertheless deletes the data file and returns
`true`: the `return false` after `recordError` is missing, contradicting
the boundary convention (an error is recorded on a path that reports
success). -/
theorem c4db_delete_busy_still_deletes :
    c4db_delete { refCount := 2, transactionLevel := 0, dataFileDeleted := false } =
      (true, some CError.busy,
       { refCount := 2, transactionLevel := 0, dataFileDeleted := true }) := by
  decide

/-! ## C2: no sticky abort across nested transactions -/

theorem runTxnEvents_replicate (n : Nat) (rest : List TxnEvent) (lvl : Nat) :
    runTxnEvents (List.replicate n TxnEvent.beginTx ++ rest) lvl =
      runTxnEvents rest (lvl + n) := by
  induction n generalizing lvl with
  | zero => simp
  | succ n ih =>
    rw [List.replicate_succ, List.cons_append]
    show runTxnEvents (List.replicate n TxnEvent.beginTx ++ rest)
      (beginTransaction lvl) = runTxnEvents rest (lvl + (n + 1))
    rw [ih]
    congr 1
    simp [beginTransaction]
    omega

theorem runTxnEvents_inner_ends (bs : List Bool) (b : Bool) :
    runTxnEvents (bs.map TxnEvent.endTx ++ [TxnEvent.endTx b]) (bs.length + 1) =
      (0, [if b then TxnOutcome.committed else TxnOutcome.aborted]) := by
  induction bs with
  | nil => simp [runTxnEvents, endTransaction]
  | cons c cs ih =>
    rw [List.map_cons, List.cons_append]
    show (let step := endTransaction (cs.length + 1 + 1) c
          let tail := runTxnEvents (cs.map TxnEvent.endTx ++ [TxnEvent.endTx b]) step.2.1
          (tail.1, step.2.2.toList ++ tail.2)) = _
    have hstep : endTransaction (cs.length + 1 + 1) c = (true, cs.length + 1, none) := by
      simp [endTransaction]
    rw [hstep]
    simp [ih]

/-- C2 counterexample: in the balanced sequence
`begin; begin; end(false); end(true)` the inner `end(false)` occurs, yet
the underlying transaction is committed by the outermost `end(true)`:
`endTransaction` keeps no sticky abort flag, so the claimed conversion of
the outermost commit into an abort does not happen. -/
theorem nested_abort_is_not_sticky :
    runTxnEvents
      [TxnEvent.beginTx, TxnEvent.beginTx, TxnEvent.endTx false, TxnEvent.endTx true]
      0 = (0, [TxnOutcome.committed]) ∧
    TxnOutcome.committed ≠ TxnOutcome.aborted := by
  exact ⟨by decide, by decide⟩

/-- C2 (amended): an inner `end(commit=false)` merely decrements the
nesting level and never touches the underlying DataFile Transaction; for
every balanced nested sequence the underlying transaction is committed iff
the outermost `end`'s own `commit` flag is true, regardless of the inner
flags. -/
theorem outermost_commit_flag_decides (bs : List Bool) (b : Bool) :
    runTxnEvents (nestedSeq bs b) 0 =
      (0, [if b then TxnOutcome.committed else TxnOutcome.aborted]) := by
  rw [nestedSeq, List.append_assoc, runTxnEvents_replicate]
  rw [Nat.zero_add]
  exact runTxnEvents_inner_ends bs b

/-! ## C3: default storage engine -/

/-- C3 counterexample: backend construction (`newDataFile`) with
`storage_engine` unspecified instantiates the **ForestDB** data file, not
the SQLite one as claimed: the dispatch at c4Database.cc 108-110 sends
both `nullptr` and `"ForestDB"` to `ForestDataFile`. -/
theorem newDataFile_unspecified_is_forest :
    (exOk? (newDataFile somePath
        { create := true, readOnly := false, bundled := false, v2Format := false
          storageEngine := none, encryptionAlgorithm := 0 } true)).map
      DataFile.kind = some DataFileKind.forest ∧
    DataFileKind.forest ≠ DataFileKind.sqlite := by
  exact ⟨by decide, by decide⟩

/-- C3 (amended): bundle resolution fixes an unspecified engine to
"SQLite" whenever it creates the bundle or finds `db.sqlite3` in it, and a
bundled open with engine unspecified therefore selects the SQLite backend
(with a created `db.sqlite3` data file); but backend construction itself
maps an unspecified engine to the ForestDB data file, so a non-bundled
open with engine unspecified selects ForestDB. -/
theorem default_engine_resolution
    (fs : BundleFS) (config : C4DatabaseConfig)
    (hnone : config.storageEngine = none) :
    (((config.create = true ∧ fs.dirExists = false) ∨
        (fs.dirExists = true ∧ kSQLiteDatabaseName ∈ fs.files)) →
      (exOk? (findOrCreateBundle fs config)).map
          (fun t => (t.1, t.2.1.storageEngine)) =
        some (kSQLiteDatabaseName, some kC4SQLiteStorageEngine)) ∧
    ((exOk? (newDataFile somePath config true)).map DataFile.kind =
       some DataFileKind.forest) ∧
    ((config.bundled = true → config.create = true → fs.dirExists = false →
      (exOk? (newDatabase fs somePath config)).map
          (fun t => (t.1.kind, t.1.path, t.1.options.create, t.2.1.storageEngine)) =
        some (DataFileKind.sqlite, kSQLiteDatabaseName, true,
          some kC4SQLiteStorageEngine))) := by
  refine ⟨?_, ?_, ?_⟩
  · rintro (⟨hc, hd⟩ | ⟨hd, hmem⟩)
    · simp [findOrCreateBundle, hnone, hc, hd, exOk?]
    · simp [findOrCreateBundle, hnone, hd, hmem, exOk?]
  · simp [newDataFile, hnone, exOk?]
  · intro hb hc hd
    have hbundle : findOrCreateBundle fs config =
        Except.ok (kSQLiteDatabaseName,
          { config with storageEngine := some kC4SQLiteStorageEngine },
          { fs with dirExists := true }) := by
      simp [findOrCreateBundle, hnone, hc, hd]
    simp [newDatabase, hb, hc, hbundle, newDataFile, kC4SQLiteStorageEngine,
      kC4ForestDBStorageEngine, exOk?]

/-- C3 amended, witness: a fresh bundled open with `create` and engine
unspecified resolves to SQLite end to end, while a plain-path open with
engine unspecified builds a ForestDB data file. -/
theorem default_engine_resolution_witness :
    (exOk? (newDatabase { dirExists := false, files := [] } somePath
        { create := true, readOnly := false, bundled := true, v2Format := false
          storageEngine := none, encryptionAlgorithm := 0 })).map
      (fun t => (t.1.kind, t.1.path, t.1.options.create, t.2.1.storageEngine)) =
    some (DataFileKind.sqlite, kSQLiteDatabaseName, true,
      some kC4SQLiteStorageEngine) :=
  (default_engine_resolution { dirExists := false, files := [] }
    { create := true, readOnly := false, bundled := true, v2Format := false
      storageEngine := none, encryptionAlgorithm := 0 } rfl).2.2 rfl rfl rfl

/-! ## C4: probing an extant bundle -/

/-- C4: in an extant bundle with no `db.sqlite3`: with engine unspecified,
resolution falls back to `db.forestdb` when present (fixing the engine to
"ForestDB"); with neither candidate present it fails `wrong_format`; and
an explicitly requested engine whose file is absent fails `wrong_format`
(for "SQLite" because `db.sqlite3` is absent, for "ForestDB" when
`db.forestdb` is absent). -/
theorem bundle_probe_fallback (fs : BundleFS) (config : C4DatabaseConfig)
    (hdir : fs.dirExists = true)
    (hnosql : kSQLiteDatabaseName ∉ fs.files) :
    (config.storageEngine = none → kForestDatabaseName ∈ fs.files →
       findOrCreateBundle fs config =
         Except.ok (kForestDatabaseName,
           { config with storageEngine := some kC4ForestDBStorageEngine }, fs)) ∧
    (config.storageEngine = none → kForestDatabaseName ∉ fs.files →
       findOrCreateBundle fs config = Except.error CError.wrongFormat) ∧
    (config.storageEngine = some kC4SQLiteStorageEngine →
       findOrCreateBundle fs config = Except.error CError.wrongFormat) ∧
    (config.storageEngine = some kC4ForestDBStorageEngine →
       kForestDatabaseName ∉ fs.files →
       findOrCreateBundle fs config = Except.error CError.wrongFormat) := by
  refine ⟨?_, ?_, ?_, ?_⟩
  · intro hnone hforest
    simp [findOrCreateBundle, hnone, hdir, hnosql, hforest]
  · intro hnone hnoforest
    simp [findOrCreateBundle, hnone, hdir, hnosql, hnoforest]
  · intro hsql
    simp [findOrCreateBundle, hsql, hdir, hnosql]
  · intro hforest hnoforest
    simp [findOrCreateBundle, hforest, hdir, hnoforest, kC4ForestDBStorageEngine,
      kC4SQLiteStorageEngine]

/-- C4 witness: a bundle holding only `db.forestdb`, probed with engine
unspecified, resolves to ForestDB; the same bundle with engine "SQLite"
requested fails `wrong_format`. -/
theorem bundle_probe_fallback_witness :
    findOrCreateBundle { dirExists := true, files := [kForestDatabaseName] }
        { create := false, readOnly := false, bundled := true, v2Format := false
          storageEngine := none, encryptionAlgorithm := 0 } =
      Except.ok (kForestDatabaseName,
        { create := false, readOnly := false, bundled := true, v2Format := false
          storageEngine := some kC4ForestDBStorageEngine, encryptionAlgorithm := 0 },
        { dirExists := true, files := [kForestDatabaseName] }) ∧
    findOrCreateBundle { dirExists := true, files := [kForestDatabaseName] }
        { create := false, readOnly := false, bundled := true, v2Format := false
          storageEngine := some kC4SQLiteStorageEngine, encryptionAlgorithm := 0 } =
      Except.error CError.wrongFormat :=
  ⟨(bundle_probe_fallback { dirExists := true, files := [kForestDatabaseName] }
      { create := false, readOnly := false, bundled := true, v2Format := false
        storageEngine := none, encryptionAlgorithm := 0 } rfl (by decide)).1
      rfl (by decide),
   (bundle_probe_fallback { dirExists := true, files := [kForestDatabaseName] }
      { create := false, readOnly := false, bundled := true, v2Format := false
        storageEngine := some kC4SQLiteStorageEngine, encryptionAlgorithm := 0 }
      rfl (by decide)).2.2.1 rfl⟩

/-! ## C5: unknown storage engine -/

/-- C5 counterexample: for an unknown engine the plain-path backend
selection (`newDataFile`) throws `error::Unimplemented`, not
`invalid_parameter` as claimed (c4Database.cc 114). -/
theorem unknown_engine_plain_path_unimplemented :
    newDataFile somePath
        { create := true, readOnly := false, bundled := false, v2Format := false
          storageEngine := some engOther, encryptionAlgorithm := 0 } true =
      Except.error CError.unimplemented ∧
    CError.unimplemented ≠ CError.invalidParameter := by
  exact ⟨by rfl, by decide⟩

/-- C5 (amended): a storage engine that is neither "SQLite" nor "ForestDB"
nor unspecified makes bundle resolution fail with `invalid_parameter`, but
plain-path backend selection fail with `unimplemented`. -/
theorem unknown_engine_errors (e : String) (fs : BundleFS)
    (config : C4DatabaseConfig) (hse : config.storageEngine = some e)
    (h1 : e ≠ kC4SQLiteStorageEngine) (h2 : e ≠ kC4ForestDBStorageEngine)
    (hdir : fs.dirExists = true) :
    findOrCreateBundle fs config = Except.error CError.invalidParameter ∧
    ∀ path isMainDB,
      newDataFile path config isMainDB = Except.error CError.unimplemented := by
  constructor
  · simp [findOrCreateBundle, hse, h1, h2, hdir]
  · intro path isMainDB
    simp [newDataFile, hse, h1, h2]

/-- C5 amended, witness at the concrete engine string "LevelDB". -/
theorem unknown_engine_errors_witness :
    findOrCreateBundle { dirExists := true, files := [] }
        { create := false, readOnly := false, bundled := true, v2Format := false
          storageEngine := some engOther, encryptionAlgorithm := 0 } =
      Except.error CError.invalidParameter ∧
    newDataFile somePath
        { create := false, readOnly := false, bundled := true, v2Format := false
          storageEngine := some engOther, encryptionAlgorithm := 0 } true =
      Except.error CError.unimplemented :=
  ⟨(unknown_engine_errors engOther { dirExists := true, files := [] }
      { create := false, readOnly := false, bundled := true, v2Format := false
        storageEngine := some engOther, encryptionAlgorithm := 0 }
      rfl (by decide) (by decide) rfl).1,
   (unknown_engine_errors engOther { dirExists := true, files := [] }
      { create := false, readOnly := false, bundled := true, v2Format := false
        storageEngine := some engOther, encryptionAlgorithm := 0 }
      rfl (by decide) (by decide) rfl).2 somePath true⟩

/-! ## Engine conformance lemmas -/

theorem copyEng_wf : ZEngineWF copyEng := by
  refine ⟨?_, ?_, ?_, ?_, ?_⟩
  · intro s m w a
    simp [copyEng]
  · intro s m w a
    simp [copyEng]
  · intro s m w a hw ha
    have : 0 < w.length := List.length_pos.mpr hw
    simp [copyEng]
    omega
  · intro s w a hb
    simp [copyEng] at hb ⊢
    omega
  · intro s w a _ _
    simp [copyEng]

theorem cexEngine_wf : ZEngineWF cexEngine := by
  refine ⟨?_, ?_, ?_, ?_, ?_⟩
  · intro s m w a
    simp only [cexEngine, cexFlate]
    split
    · split <;> simp
    · simp
  · intro s m w a
    simp only [cexEngine, cexFlate]
    split
    · split <;> simp
    · simp
  · intro s m w a hw ha
    have : 0 < w.length := List.length_pos.mpr hw
    simp only [cexEngine, cexFlate]
    split
    · split <;> simp <;> omega
    · simp
      omega
  · intro s w a hb
    simp only [cexEngine] at hb
    simp [cexEngine, cexFlate, Mode.flushCode, hb]
  · intro s w a hcons hprod
    by_cases hfit : w.length + 13 ≤ a
    · simp [cexEngine, cexFlate, Mode.flushCode, hfit]
    · simp [cexEngine, cexFlate, Mode.flushCode, hfit] at hprod ⊢
      omega

theorem cex2Engine_wf : ZEngineWF cex2Engine := by
  refine ⟨?_, ?_, ?_, ?_, ?_⟩
  · intro s m w a
    simp only [cex2Engine, cex2Flate]
    split <;> simp
  · intro s m w a
    simp only [cex2Engine, cex2Flate]
    split <;> simp
  · intro s m w a hw ha
    have : 0 < w.length := List.length_pos.mpr hw
    simp only [cex2Engine, cex2Flate]
    split <;> simp <;> omega
  · intro s w a hb
    simp only [cex2Engine] at hb
    simp [cex2Engine, cex2Flate, Mode.flushCode]
    omega
  · intro s w a _ _
    simp [cex2Engine, cex2Flate]

/-! ## CRC-32 composition -/

theorem crc32_append (c : Nat) (xs ys : List Nat) :
    crc32 (crc32 c xs) ys = crc32 c (xs ++ ys) := by
  unfold crc32
  rw [List.foldl_append]
  congr 1
  congr 1
  rw [Nat.xor_assoc, Nat.xor_self, Nat.xor_zero]

/-! ## Per-write checksum lemmas -/

theorem deflaterWrite_checksum {S : Type} (eng : ZEngine S)
    (st : CodecState S) (input : List Nat) (outRem : Nat) (mode : Mode)
    (w : WriteOut S) (h : Deflater.write eng st input outRem mode = Except.ok w) :
    w.st.checksum =
      addToChecksum st.checksum (input.take (input.length - w.input.length)) := by
  cases mode with
  | Raw =>
    simp only [Deflater.write] at h
    cases hw : writeRaw st.checksum input outRem with
    | error e =>
      rw [hw] at h
      exact absurd h (by simp)
    | ok q =>
      rw [hw] at h
      obtain ⟨ck, input1, outRem1, chunk⟩ := q
      simp only [Except.ok.injEq] at h
      subst h
      rw [writeRaw] at hw
      split at hw
      · exact absurd hw (by simp)
      · simp only [Except.ok.injEq, Prod.mk.injEq] at hw
        obtain ⟨hck, hinp, hout, hchunk⟩ := hw
        subst hck hinp
        have hmin : input.length - (input.length -
            min input.length outRem) = min input.length outRem := by
          have := Nat.min_le_left input.length outRem
          omega
        simp [List.length_drop, hmin]
  | NoFlush =>
    simp only [Deflater.write] at h
    split at h
    · exact absurd h (by simp)
    · simp only [Except.ok.injEq] at h
      subst h
      rfl
  | SyncFlush =>
    simp only [Deflater.write] at h
    split at h
    · exact absurd h (by simp)
    · simp only [Except.ok.injEq] at h
      subst h
      rfl
  | PartialFlush => exact absurd h (by simp [Deflater.write])

theorem inflaterWrite_checksum {S : Type} (eng : ZEngine S)
    (st : CodecState S) (input : List Nat) (outRem : Nat) (mode : Mode)
    (w : WriteOut S) (h : Inflater.write eng st input outRem mode = Except.ok w) :
    w.st.checksum = addToChecksum st.checksum w.produced := by
  cases mode with
  | Raw =>
    simp only [Inflater.write] at h
    cases hw : writeRaw st.checksum input outRem with
    | error e =>
      rw [hw] at h
      exact absurd h (by simp)
    | ok q =>
      rw [hw] at h
      obtain ⟨ck, input1, outRem1, chunk⟩ := q
      simp only [Except.ok.injEq] at h
      subst h
      rw [writeRaw] at hw
      split at hw
      · exact absurd hw (by simp)
      · simp only [Except.ok.injEq, Prod.mk.injEq] at hw
        obtain ⟨hck, hinp, hout, hchunk⟩ := hw
        subst hck hchunk
        rfl
  | NoFlush =>
    simp only [Inflater.write] at h
    split at h
    · exact absurd h (by simp)
    · simp only [Except.ok.injEq] at h
      subst h
      rfl
  | PartialFlush =>
    simp only [Inflater.write] at h
    split at h
    · exact absurd h (by simp)
    · simp only [Except.ok.injEq] at h
      subst h
      rfl
  | SyncFlush =>
    simp only [Inflater.write] at h
    split at h
    · exact absurd h (by simp)
    · simp only [Except.ok.injEq] at h
      subst h
      rfl

theorem deflaterRunWrites_crc {S : Type} (eng : ZEngine S) :
    ∀ (ws : List (Mode × List Nat × Nat)) (st : CodecState S) (log : List Nat),
      st.checksum = crc32 0 log →
      runCk (Deflater.runWrites eng st log ws) =
        (runLog (Deflater.runWrites eng st log ws)).map (crc32 0) := by
  intro ws
  induction ws with
  | nil =>
    intro st log h
    simp [Deflater.runWrites, runCk, runLog, exOk?, h]
  | cons x rest ih =>
    intro st log h
    obtain ⟨m, inp, out⟩ := x
    simp only [Deflater.runWrites]
    cases hw : Deflater.write eng st inp out m with
    | error e => simp [runCk, runLog, exOk?]
    | ok w =>
      apply ih
      rw [deflaterWrite_checksum eng st inp out m w hw, addToChecksum, h,
        crc32_append]

theorem inflaterRunWrites_crc {S : Type} (eng : ZEngine S) :
    ∀ (ws : List (Mode × List Nat × Nat)) (st : CodecState S) (log : List Nat),
      st.checksum = crc32 0 log →
      runCk (Inflater.runWrites eng st log ws) =
        (runLog (Inflater.runWrites eng st log ws)).map (crc32 0) := by
  intro ws
  induction ws with
  | nil =>
    intro st log h
    simp [Inflater.runWrites, runCk, runLog, exOk?, h]
  | cons x rest ih =>
    intro st log h
    obtain ⟨m, inp, out⟩ := x
    simp only [Inflater.runWrites]
    cases hw : Inflater.write eng st inp out m with
    | error e => simp [runCk, runLog, exOk?]
    | ok w =>
      apply ih
      rw [inflaterWrite_checksum eng st inp out m w hw, addToChecksum, h,
        crc32_append]

/-- C7: starting from the initial checksum `crc32(0, null, 0)`, after any
sequence of writes that has not failed, the codec's CRC-32 accumulator
equals the CRC-32 of exactly the plaintext processed so far: for the
Deflater the input bytes its writes consumed (in every mode, including
raw), and for the Inflater the bytes its writes produced into the output
slice. -/
theorem checksum_is_crc_of_plaintext (S : Type) (eng : ZEngine S) (z0 : S)
    (ws : List (Mode × List Nat × Nat)) :
    runCk (Deflater.runWrites eng { z := z0, checksum := crc32 0 [] } [] ws) =
      (runLog (Deflater.runWrites eng { z := z0, checksum := crc32 0 [] } []
        ws)).map (crc32 0) ∧
    runCk (Inflater.runWrites eng { z := z0, checksum := crc32 0 [] } [] ws) =
      (runLog (Inflater.runWrites eng { z := z0, checksum := crc32 0 [] } []
        ws)).map (crc32 0) :=
  ⟨deflaterRunWrites_crc eng ws _ [] rfl, inflaterRunWrites_crc eng ws _ [] rfl⟩

/-! ## C8: readAndVerifyChecksum -/

/-- C8: `readAndVerifyChecksum` consumes exactly 4 bytes: with fewer than
4 bytes available it fails `corrupt_data("…ends before checksum")` leaving
the input unconsumed; otherwise the input advances by exactly 4 bytes and
the call succeeds iff the big-endian value of those 4 bytes equals the
accumulated checksum, failing `corrupt_data("…invalid checksum")` iff it
differs. -/
theorem readAndVerifyChecksum_spec (checksum : Nat) (input : List Nat) :
    (input.length < kChecksumSize →
       readAndVerifyChecksum checksum input =
         (Except.error (CError.corruptData msgEndsBeforeChecksum), input)) ∧
    (kChecksumSize ≤ input.length →
       (readAndVerifyChecksum checksum input).2 = input.drop kChecksumSize ∧
       input.take kChecksumSize ++ (readAndVerifyChecksum checksum input).2 =
         input ∧
       ((readAndVerifyChecksum checksum input).1 = Except.ok () ↔
          dec32 (input.take kChecksumSize) = checksum) ∧
       ((readAndVerifyChecksum checksum input).1 =
          Except.error (CError.corruptData msgInvalidChecksum) ↔
          dec32 (input.take kChecksumSize) ≠ checksum)) := by
  constructor
  · intro h
    simp [readAndVerifyChecksum, h]
  · intro h
    have hlt : ¬ input.length < kChecksumSize := by omega
    by_cases hc : dec32 (input.take kChecksumSize) = checksum
    · simp [readAndVerifyChecksum, hlt, hc]
    · simp [readAndVerifyChecksum, hlt, hc]

/-- C8 witness: a 5-byte input with a matching big-endian checksum is
consumed down to its last byte and verifies; a 2-byte input is rejected
untouched. -/
theorem readAndVerifyChecksum_witness :
    ((readAndVerifyChecksum 5 [0, 0, 0, 5, 9]).2 = [9] ∧
     ((readAndVerifyChecksum 5 [0, 0, 0, 5, 9]).1 = Except.ok () ↔
        dec32 [0, 0, 0, 5] = 5)) ∧
    readAndVerifyChecksum 5 [0, 0] =
      (Except.error (CError.corruptData msgEndsBeforeChecksum), [0, 0]) :=
  ⟨⟨((readAndVerifyChecksum_spec 5 [0, 0, 0, 5, 9]).2 (by decide)).1,
    ((readAndVerifyChecksum_spec 5 [0, 0, 0, 5, 9]).2 (by decide)).2.2.1⟩,
   (readAndVerifyChecksum_spec 5 [0, 0]).1 (by decide)⟩

/-! ## Anatomy of a successful engine call -/

theorem zwrite_ok {S : Type} {eng : ZEngine S} {s : S} {input : List Nat}
    {outRem : Nat} {mode : Mode} {maxInput : Nat} {w : ZWriteOut S}
    (h : zwrite eng s input outRem mode maxInput = Except.ok w) :
    ∃ r : FlateResult S,
      r = eng.flate s mode.flushCode
            (input.take ((min input.length maxInput) % 4294967296))
            (outRem % 4294967296) ∧
      0 < outRem % 4294967296 ∧ mode ≠ Mode.Raw ∧
      w.state = r.state ∧
      w.input = input.drop r.consumed ∧
      w.produced = r.produced ∧
      w.outRem = outRem - r.produced.length ∧
      w.call.mode = mode ∧ w.call.maxInput = maxInput ∧
      w.call.inBefore = input.length ∧
      w.call.windowLen =
        (input.take ((min input.length maxInput) % 4294967296)).length ∧
      w.call.outBefore = outRem ∧
      w.call.consumed = r.consumed ∧
      w.call.producedLen = r.produced.length ∧
      w.call.outAfter = outRem - r.produced.length := by
  simp only [zwrite] at h
  split at h
  · exact absurd h (by simp)
  · split at h
    · exact absurd h (by simp)
    · split at h
      · exact absurd h (by simp)
      · simp only [Except.ok.injEq] at h
        subst h
        rename_i hnz hnraw hret
        refine ⟨_, rfl, Nat.pos_of_ne_zero hnz, hnraw, rfl, rfl, rfl, rfl, rfl,
          rfl, rfl, rfl, rfl, rfl, rfl, rfl⟩

/-! ## The sync-flush loop invariant -/

theorem writeAndFlushLoop_spec {S : Type} {eng : ZEngine S} (hwf : ZEngineWF eng) :
    ∀ (fuel : Nat) (s : S) (input : List Nat) (outRem : Nat) (curMode : Mode)
      (lo : FlushLoopOut S),
      input.length < 4294967296 → outRem < 4294967296 →
      (curMode = Mode.SyncFlush → input = [] ∧ eng.pendingCount s = 0) →
      (curMode = Mode.PartialFlush ∨ curMode = Mode.SyncFlush) →
      writeAndFlushLoop eng fuel s input outRem curMode = Except.ok lo →
      (∀ r ∈ lo.trace, LoopCallPolicy r) ∧
      Stops100 lo.trace ∧
      (lo.curMode = Mode.SyncFlush ↔
         (curMode = Mode.SyncFlush ∨
           ∃ r ∈ lo.trace, r.call.mode = Mode.SyncFlush)) ∧
      (lo.curMode = Mode.SyncFlush → eng.pendingCount lo.state = 0) ∧
      lo.input.length ≤ input.length ∧
      lo.outRem ≤ outRem ∧
      lo.outRem + lo.produced.length = outRem ∧
      (input.length + outRem < fuel → lo.diverged = false) := by
  intro fuel
  induction fuel with
  | zero =>
    intro s input outRem curMode lo hin hout hcm _ hlo
    simp only [writeAndFlushLoop, Except.ok.injEq] at hlo
    subst hlo
    refine ⟨by simp, trivial, ?_, ?_, le_refl _, le_refl _, by simp, ?_⟩
    · constructor
      · intro h
        exact Or.inl h
      · rintro (h | ⟨r, hr, _⟩)
        · exact h
        · exact absurd hr (by simp)
    · intro h
      exact (hcm h).2
    · intro h
      exact absurd h (by omega)
  | succ fuel ih =>
    intro s input outRem curMode lo hin hout hcm hcm2 hlo
    simp only [writeAndFlushLoop] at hlo
    by_cases hzero : input.length = 0
    · rw [if_pos hzero] at hlo
      simp only [Except.ok.injEq] at hlo
      subst hlo
      refine ⟨by simp, trivial, ?_, ?_, le_refl _, le_refl _, by simp, ?_⟩
      · constructor
        · intro h
          exact Or.inl h
        · rintro (h | ⟨r, hr, _⟩)
          · exact h
          · exact absurd hr (by simp)
      · intro h
        exact (hcm h).2
      · intro h
        rfl
    · rw [if_neg hzero] at hlo
      have hmod_in : input.length % 4294967296 = input.length :=
        Nat.mod_eq_of_lt hin
      have hmod_out : outRem % 4294967296 = outRem := Nat.mod_eq_of_lt hout
      by_cases hfit : eng.deflateBound s (input.length % 4294967296) ≤ outRem
      · -- guaranteed-fit branch: one sync-flush call over the whole input
        simp only [if_pos hfit] at hlo
        cases hz : zwrite eng s input outRem Mode.SyncFlush sizeMax with
        | error e =>
          rw [hz] at hlo
          exact absurd hlo (by simp)
        | ok w =>
          rw [hz] at hlo
          dsimp only at hlo
          obtain ⟨r, hr, hpos, hnraw, hst, hinp, hprodw, houtw, hcmode, hmaxi,
            hinb, hwl, houtb, hconsc, hplen, houta⟩ := zwrite_ok hz
          have hminmax : min input.length sizeMax = input.length := by
            have : input.length ≤ sizeMax := by
              unfold sizeMax
              omega
            omega
          have hwindow :
              input.take ((min input.length sizeMax) % 4294967296) = input := by
            rw [hminmax, hmod_in, List.take_length]
          rw [hwindow, hmod_out] at hr
          have hbg := hwf.bound_guarantee s input outRem
          rw [← hr] at hbg
          rw [hmod_in] at hfit
          have hcfull : r.consumed = input.length := (hbg hfit).1
          have hpend : eng.pendingCount r.state = 0 := (hbg hfit).2
          have hwinp : w.input = [] := by
            rw [hinp, hcfull, List.drop_length]
          have hple : r.produced.length ≤ outRem := by
            have := hwf.produced_le s Mode.SyncFlush.flushCode input outRem
            rw [← hr] at this
            exact this
          have hlrpolicy : LoopCallPolicy
              ⟨w.call, eng.deflateBound s (input.length % 4294967296)⟩ := by
            constructor
            · intro _
              refine ⟨hcmode, hmaxi, ?_⟩
              rw [hconsc, hcfull, hinb]
            · intro hlt
              dsimp only at hlt
              rw [houtb, hmod_in] at hlt
              omega
          by_cases hbreak : w.outRem ≤ kStopAtOutputSize
          · rw [if_pos hbreak] at hlo
            simp only [Except.ok.injEq] at hlo
            subst hlo
            dsimp only
            refine ⟨?_, trivial, ?_, ?_, ?_, ?_, ?_, ?_⟩
            · intro c hc
              simp only [List.mem_singleton] at hc
              subst hc
              exact hlrpolicy
            · exact iff_of_true rfl
                (Or.inr ⟨_, List.mem_singleton_self _, hcmode⟩)
            · intro _
              rw [hst]
              exact hpend
            · rw [hwinp]
              simp
            · rw [houtw]
              exact Nat.sub_le _ _
            · rw [houtw, hprodw]
              omega
            · intro _
              rfl
          · rw [if_neg hbreak] at hlo
            cases hrec : writeAndFlushLoop eng fuel w.state w.input w.outRem
                Mode.SyncFlush with
            | error e =>
              rw [hrec] at hlo
              exact absurd hlo (by simp)
            | ok rest =>
              rw [hrec] at hlo
              dsimp only at hlo
              simp only [Except.ok.injEq] at hlo
              subst hlo
              dsimp only
              have hinlt : w.input.length < 4294967296 := by
                rw [hwinp]
                simp
              have houtlt : w.outRem < 4294967296 := by
                rw [houtw]
                omega
              have hcm' : Mode.SyncFlush = Mode.SyncFlush →
                  w.input = [] ∧ eng.pendingCount w.state = 0 := by
                intro _
                exact ⟨hwinp, by rw [hst]; exact hpend⟩
              obtain ⟨Q1, Q2, Q3, Q4, Q5, Q6, Q7, Q8⟩ :=
                ih w.state w.input w.outRem Mode.SyncFlush rest hinlt houtlt
                  hcm' (Or.inr rfl) hrec
              have hrestSync : rest.curMode = Mode.SyncFlush :=
                Q3.mpr (Or.inl rfl)
              refine ⟨?_, ?_, ?_, ?_, ?_, ?_, ?_, ?_⟩
              · intro c hc
                rcases List.mem_cons.mp hc with hc | hc
                · subst hc
                  exact hlrpolicy
                · exact Q1 c hc
              · cases hrt : rest.trace with
                | nil => trivial
                | cons a t =>
                  show kStopAtOutputSize < w.call.outAfter ∧ Stops100 (a :: t)
                  constructor
                  · rw [houta, ← houtw]
                    omega
                  · rw [← hrt]
                    exact Q2
              · exact iff_of_true hrestSync
                  (Or.inr ⟨_, List.mem_cons_self _ _, hcmode⟩)
              · intro _
                exact Q4 hrestSync
              · calc rest.input.length ≤ w.input.length := Q5
                  _ ≤ input.length := by
                    rw [hwinp]
                    simp
              · calc rest.outRem ≤ w.outRem := Q6
                  _ ≤ outRem := by
                    rw [houtw]
                    exact Nat.sub_le _ _
              · have h1 : w.outRem + r.produced.length = outRem := by
                  rw [houtw]
                  omega
                rw [hprodw]
                simp only [List.length_append]
                omega
              · intro hlt
                apply Q8
                have h1 : 1 ≤ input.length := Nat.one_le_iff_ne_zero.mpr hzero
                have h2 : w.outRem ≤ outRem := by
                  rw [houtw]
                  exact Nat.sub_le _ _
                rw [hwinp]
                simp only [List.length_nil]
                omega
      · -- conservative branch: a partial-flush call with limited input
        have hpp : curMode = Mode.PartialFlush := by
          rcases hcm2 with hpp | hsync
          · exact hpp
          · rw [(hcm hsync).1] at hzero
            exact absurd rfl hzero
        subst hpp
        simp only [if_neg hfit] at hlo
        cases hz : zwrite eng s input outRem Mode.PartialFlush
            (sizeSub outRem kHeadroomForFlush) with
        | error e =>
          rw [hz] at hlo
          exact absurd hlo (by simp)
        | ok w =>
          rw [hz] at hlo
          dsimp only at hlo
          obtain ⟨r, hr, hpos, hnraw, hst, hinp, hprodw, houtw, hcmode, hmaxi,
            hinb, hwl, houtb, hconsc, hplen, houta⟩ := zwrite_ok hz
          have hple : r.produced.length ≤ outRem := by
            have := hwf.produced_le s Mode.PartialFlush.flushCode
              (input.take ((min input.length
                (sizeSub outRem kHeadroomForFlush)) % 4294967296))
              (outRem % 4294967296)
            rw [← hr, hmod_out] at this
            exact this
          have hcle : r.consumed ≤ input.length := by
            have := hwf.consumed_le s Mode.PartialFlush.flushCode
              (input.take ((min input.length
                (sizeSub outRem kHeadroomForFlush)) % 4294967296))
              (outRem % 4294967296)
            rw [← hr] at this
            exact le_trans this (by simp)
          have hlrpolicy : LoopCallPolicy
              ⟨w.call, eng.deflateBound s (input.length % 4294967296)⟩ := by
            constructor
            · intro hge
              dsimp only at hge
              rw [houtb] at hge
              omega
            · intro _
              dsimp only
              exact ⟨hcmode, by rw [hmaxi, houtb]⟩
          have hwinlen : w.input.length ≤ input.length := by
            rw [hinp]
            simp
          by_cases hbreak : w.outRem ≤ kStopAtOutputSize
          · rw [if_pos hbreak] at hlo
            simp only [Except.ok.injEq] at hlo
            subst hlo
            dsimp only
            refine ⟨?_, trivial, ?_, ?_, ?_, ?_, ?_, ?_⟩
            · intro c hc
              simp only [List.mem_singleton] at hc
              subst hc
              exact hlrpolicy
            · refine iff_of_false (by simp) ?_
              rintro (h | ⟨c, hc, hm⟩)
              · exact Mode.noConfusion h
              · simp only [List.mem_singleton] at hc
                subst hc
                rw [hcmode] at hm
                exact Mode.noConfusion hm
            · intro h
              exact absurd h (by simp)
            · exact hwinlen
            · rw [houtw]
              exact Nat.sub_le _ _
            · rw [houtw, hprodw]
              omega
            · intro _
              rfl
          · rw [if_neg hbreak] at hlo
            cases hrec : writeAndFlushLoop eng fuel w.state w.input w.outRem
                Mode.PartialFlush with
            | error e =>
              rw [hrec] at hlo
              exact absurd hlo (by simp)
            | ok rest =>
              rw [hrec] at hlo
              dsimp only at hlo
              simp only [Except.ok.injEq] at hlo
              subst hlo
              dsimp only
              have hinlt : w.input.length < 4294967296 :=
                lt_of_le_of_lt hwinlen hin
              have houtlt : w.outRem < 4294967296 := by
                rw [houtw]
                omega
              have hcm' : Mode.PartialFlush = Mode.SyncFlush →
                  w.input = [] ∧ eng.pendingCount w.state = 0 := by
                intro h
                exact absurd h (by simp)
              obtain ⟨Q1, Q2, Q3, Q4, Q5, Q6, Q7, Q8⟩ :=
                ih w.state w.input w.outRem Mode.PartialFlush rest hinlt houtlt
                  hcm' (Or.inl rfl) hrec
              refine ⟨?_, ?_, ?_, ?_, ?_, ?_, ?_, ?_⟩
              · intro c hc
                rcases List.mem_cons.mp hc with hc | hc
                · subst hc
                  exact hlrpolicy
                · exact Q1 c hc
              · cases hrt : rest.trace with
                | nil => trivial
                | cons a t =>
                  show kStopAtOutputSize < w.call.outAfter ∧ Stops100 (a :: t)
                  constructor
                  · rw [houta, ← houtw]
                    omega
                  · rw [← hrt]
                    exact Q2
              · constructor
                · intro h
                  rcases Q3.mp h with h | ⟨c, hc, hm⟩
                  · exact absurd h (by simp)
                  · exact Or.inr ⟨c, List.mem_cons_of_mem _ hc, hm⟩
                · rintro (h | ⟨c, hc, hm⟩)
                  · exact Mode.noConfusion h
                  · rcases List.mem_cons.mp hc with hc | hc
                    · subst hc
                      rw [hcmode] at hm
                      exact Mode.noConfusion hm
                    · exact Q3.mpr (Or.inr ⟨c, hc, hm⟩)
              · exact Q4
              · exact le_trans Q5 hwinlen
              · calc rest.outRem ≤ w.outRem := Q6
                  _ ≤ outRem := by
                    rw [houtw]
                    exact Nat.sub_le _ _
              · have h1 : w.outRem + r.produced.length = outRem := by
                  rw [houtw]
                  omega
                rw [hprodw]
                simp only [List.length_append]
                omega
              · intro hlt
                apply Q8
                -- the engine made progress, so the measure strictly drops
                have houtgt : kStopAtOutputSize < outRem := by
                  have : w.outRem ≤ outRem := by
                    rw [houtw]
                    exact Nat.sub_le _ _
                  omega
                have hmipos : 0 < sizeSub outRem kHeadroomForFlush := by
                  unfold sizeSub kHeadroomForFlush
                  unfold kStopAtOutputSize at houtgt
                  omega
                have hwinne :
                    input.take ((min input.length
                      (sizeSub outRem kHeadroomForFlush)) % 4294967296) ≠ [] := by
                  have hk : (min input.length
                      (sizeSub outRem kHeadroomForFlush)) % 4294967296 =
                      min input.length (sizeSub outRem kHeadroomForFlush) := by
                    apply Nat.mod_eq_of_lt
                    have : min input.length (sizeSub outRem kHeadroomForFlush) ≤
                        input.length := Nat.min_le_left _ _
                    omega
                  rw [hk]
                  intro hnil
                  have := congrArg List.length hnil
                  simp only [List.length_take, List.length_nil] at this
                  omega
                have hprog := hwf.progress s Mode.PartialFlush.flushCode
                  (input.take ((min input.length
                    (sizeSub outRem kHeadroomForFlush)) % 4294967296))
                  (outRem % 4294967296) hwinne (by omega)
                rw [← hr] at hprog
                have hwinlen2 : w.input.length = input.length - r.consumed := by
                  rw [hinp]
                  simp
                rw [hwinlen2, houtw]
                omega

theorem writeAndFlush_spec {S : Type} {eng : ZEngine S} (hwf : ZEngineWF eng)
    {s : S} {input : List Nat} {outRem : Nat} {fo : FlushOut S}
    (hin : input.length < 4294967296) (hout : outRem < 4294967296)
    (h : writeAndFlush eng s input outRem = Except.ok fo) :
    (∀ r ∈ fo.loopTrace, LoopCallPolicy r) ∧
    Stops100 fo.loopTrace ∧
    (fo.finalCall = none ↔ ∃ r ∈ fo.loopTrace, r.call.mode = Mode.SyncFlush) ∧
    (∀ c, fo.finalCall = some c →
       c.mode = Mode.SyncFlush ∧ c.maxInput = 0 ∧ c.windowLen = 0 ∧
       c.consumed = 0) ∧
    fo.diverged = false ∧
    fo.outRem + fo.produced.length = outRem ∧
    (fo.finalCall = none → eng.pendingCount fo.state = 0) ∧
    (∀ c, fo.finalCall = some c → 0 < c.outAfter →
       eng.pendingCount fo.state = 0) := by
  unfold writeAndFlush at h
  cases hloop : writeAndFlushLoop eng (input.length + outRem + 1) s input outRem
      Mode.PartialFlush with
  | error e =>
    rw [hloop] at h
    exact absurd h (by simp)
  | ok lo =>
    rw [hloop] at h
    dsimp only at h
    obtain ⟨P1, P2, P3, P4, P5, P6, P7, P8⟩ :=
      writeAndFlushLoop_spec hwf (input.length + outRem + 1) s input outRem
        Mode.PartialFlush lo hin hout (fun hx => absurd hx (by simp))
        (Or.inl rfl) hloop
    have hdiv : lo.diverged = false := P8 (by omega)
    rw [hdiv] at h
    simp only [Bool.false_eq_true, if_false] at h
    by_cases hsync : lo.curMode = Mode.SyncFlush
    · rw [if_neg (by simp [hsync])] at h
      simp only [Except.ok.injEq] at h
      subst h
      dsimp only
      have hex : ∃ r ∈ lo.trace, r.call.mode = Mode.SyncFlush := by
        rcases P3.mp hsync with hx | hx
        · exact absurd hx (by simp)
        · exact hx
      refine ⟨P1, P2, iff_of_true rfl hex, ?_, rfl, P7, ?_, ?_⟩
      · intro c hc
        exact absurd hc (by simp)
      · intro _
        exact P4 hsync
      · intro c hc
        exact absurd hc (by simp)
    · rw [if_pos (by simpa using hsync)] at h
      cases hz2 : zwrite eng lo.state lo.input lo.outRem Mode.SyncFlush 0 with
      | error e =>
        rw [hz2] at h
        exact absurd h (by simp)
      | ok w2 =>
        rw [hz2] at h
        simp only [Except.ok.injEq] at h
        subst h
        dsimp only
        obtain ⟨r2, hr2, hpos2, _, hst2, _, hprod2, hout2, hcm2, hmax2, _,
          hwl2, houtb2, hcons2, hplen2, houta2⟩ := zwrite_ok hz2
        have hwin0 :
            (lo.input.take ((min lo.input.length 0) % 4294967296)).length = 0 := by
          simp
        have hcons0 : r2.consumed = 0 := by
          have := hwf.consumed_le lo.state Mode.SyncFlush.flushCode
            (lo.input.take ((min lo.input.length 0) % 4294967296))
            (lo.outRem % 4294967296)
          rw [← hr2] at this
          omega
        have hloModOut : lo.outRem % 4294967296 = lo.outRem :=
          Nat.mod_eq_of_lt (lt_of_le_of_lt P6 hout)
        have hple2 : r2.produced.length ≤ lo.outRem := by
          have := hwf.produced_le lo.state Mode.SyncFlush.flushCode
            (lo.input.take ((min lo.input.length 0) % 4294967296))
            (lo.outRem % 4294967296)
          rw [← hr2, hloModOut] at this
          exact this
        have hnoSync : ¬ ∃ r ∈ lo.trace, r.call.mode = Mode.SyncFlush := by
          intro hex
          exact hsync (P3.mpr (Or.inr hex))
        refine ⟨P1, P2, iff_of_false (by simp) hnoSync, ?_, rfl, ?_, ?_, ?_⟩
        · intro c hc
          simp only [Option.some.injEq] at hc
          subst hc
          refine ⟨hcm2, hmax2, ?_, ?_⟩
          · rw [hwl2, hwin0]
          · rw [hcons2, hcons0]
        · rw [hout2, hprod2]
          simp only [List.length_append]
          omega
        · intro hc
          exact absurd hc (by simp)
        · intro c hc hafter
          simp only [Option.some.injEq] at hc
          subst hc
          rw [houta2] at hafter
          have hlt2 : r2.produced.length < lo.outRem := by omega
          have hclears := hwf.sync_clears lo.state
            (lo.input.take ((min lo.input.length 0) % 4294967296))
            (lo.outRem % 4294967296)
          rw [← hr2, hloModOut] at hclears
          rw [hst2]
          apply hclears
          · rw [hcons0]
            rw [List.length_eq_zero] at hwin0
            rw [hwin0]
            rfl
          · exact hlt2

/-- Unpacks a successful sync-flush `Deflater::write` into its underlying
`_writeAndFlush` run. -/
theorem Deflater.write_sync {S : Type} {eng : ZEngine S} {st : CodecState S}
    {input : List Nat} {outRem : Nat} {w : WriteOut S}
    (h : Deflater.write eng st input outRem Mode.SyncFlush = Except.ok w) :
    ∃ fo, writeAndFlush eng st.z input outRem = Except.ok fo ∧
      w.st.z = fo.state ∧ w.loopTrace = fo.loopTrace ∧
      w.finalCall = fo.finalCall ∧ w.diverged = fo.diverged ∧
      w.outRem = fo.outRem ∧ w.produced = fo.produced ∧ w.input = fo.input := by
  simp only [Deflater.write] at h
  cases hf : writeAndFlush eng st.z input outRem with
  | error e =>
    rw [hf] at h
    exact absurd h (by simp)
  | ok fo =>
    rw [hf] at h
    simp only [Except.ok.injEq] at h
    subst h
    exact ⟨fo, rfl, rfl, rfl, rfl, rfl, rfl, rfl, rfl⟩

theorem writeAndFlush_zero_out {S : Type} (eng : ZEngine S) (s : S)
    (input : List Nat) :
    writeAndFlush eng s input 0 = Except.error CError.assertionFailed := by
  unfold writeAndFlush
  rw [writeAndFlushLoop]
  by_cases hz : input.length = 0
  · rw [if_pos hz]
    dsimp only
    simp [zwrite]
  · rw [if_neg hz]
    simp [zwrite]

theorem zwrite_cursor {S : Type} {eng : ZEngine S} (hwf : ZEngineWF eng)
    (s : S) (input : List Nat) (outRem : Nat) (mode : Mode) (maxInput : Nat)
    (h0 : 0 < outRem) (hlt : outRem < 4294967296) (hm : mode ≠ Mode.Raw) :
    exErr? (zwrite eng s input outRem mode maxInput) ≠
      some CError.assertionFailed ∧
    ∀ w, zwrite eng s input outRem mode maxInput = Except.ok w →
      w.outRem + w.produced.length = outRem ∧ w.produced.length ≤ outRem := by
  have hple : (eng.flate s mode.flushCode
      (input.take ((min input.length maxInput) % 4294967296))
      (outRem % 4294967296)).produced.length ≤ outRem := by
    have := hwf.produced_le s mode.flushCode
      (input.take ((min input.length maxInput) % 4294967296))
      (outRem % 4294967296)
    exact le_trans this (Nat.mod_le _ _)
  simp only [zwrite]
  rw [if_neg (by omega : ¬ outRem % 4294967296 = 0), if_neg hm]
  split
  · exact ⟨by simp [exErr?], fun w hw => absurd hw (by simp)⟩
  · refine ⟨by simp [exErr?], fun w hw => ?_⟩
    simp only [Except.ok.injEq] at hw
    subst hw
    dsimp only
    omega

/-! ## C6: the sync-flush write algorithm -/

/-- C6 counterexample: with a 5-byte output slice and a 1-byte input, the
conservative branch's input limit is `output.size - 12` computed in
`size_t` arithmetic, which wraps to `2^64 - 7`: the partial-flush call is
not limited to `output size - 12 = 0` bytes (it consumes 1 byte), so the
claim's reading of the limit fails for outputs smaller than the 12-byte
headroom.  (`cexEngine` conforms to the zlib contract, `cexEngine_wf`.) -/
theorem deflate_conservative_limit_wraps :
    (exOk? (Deflater.write cexEngine { z := 0, checksum := 0 } [9] 5
        Mode.SyncFlush)).map WriteOut.loopTrace =
      some [⟨⟨Mode.PartialFlush, 18446744073709551609, 1, 1, 5, 1, 0, 5⟩, 14⟩] ∧
    ¬ (18446744073709551609 : Nat) = 5 - 12 ∧
    ¬ (1 : Nat) ≤ 5 - 12 ∧
    ZEngineWF cexEngine := by
  refine ⟨by decide, by decide, by decide, cexEngine_wf⟩

/-- C6 (amended): for every conforming engine, a sync-flush write with
non-empty input loops exactly as claimed — a sync-flush call over all
remaining input when the output holds at least `deflateBound` of it, else
a partial-flush call whose input limit is `output.size - 12` in `size_t`
arithmetic (`output size - 12` whenever the output holds at least 12
bytes, wrapping otherwise), stopping once remaining output is at or below
100 bytes — and performs one final zero-input sync-flush call exactly when
no loop call sync-flushed. -/
theorem deflate_sync_flush_trace {S : Type} (eng : ZEngine S)
    (hwf : ZEngineWF eng) (st : CodecState S) (input : List Nat) (outRem : Nat)
    (hne : input ≠ []) (hin : input.length < 4294967296)
    (hout : outRem < 4294967296) :
    SyncFlushTraceClaim (Deflater.write eng st input outRem Mode.SyncFlush) := by
  intro w hw
  obtain ⟨fo, hfo, hz, htr, hfc, hdv, _, _, _⟩ := Deflater.write_sync hw
  obtain ⟨A1, A2, A3, A4, A5, _, _, _⟩ := writeAndFlush_spec hwf hin hout hfo
  rw [htr, hfc, hdv]
  exact ⟨A1, A2, A3, A4, A5⟩

/-- C6 amended, witness: a concrete conforming engine and write on which
the theorem's hypotheses hold. -/
theorem deflate_sync_flush_trace_witness :
    ([1, 2, 3] : List Nat) ≠ [] ∧
    SyncFlushTraceClaim
      (Deflater.write copyEng { z := (), checksum := 0 } [1, 2, 3] 200
        Mode.SyncFlush) :=
  ⟨by decide,
   deflate_sync_flush_trace copyEng copyEng_wf { z := (), checksum := 0 }
     [1, 2, 3] 200 (by decide) (by decide) (by decide)⟩

/-! ## C9: unflushed bytes after a sync-flush write -/

/-- C9 counterexample: a conforming engine and a successful sync-flush
write (1 byte of input, 5 bytes of output) after which `unflushedBytes`
is 1, not 0: the final zero-input sync-flush call filled the whole
remaining output, so the flush is incomplete even though the write
reported success. -/
theorem deflate_sync_flush_unflushed_nonzero :
    (exOk? (Deflater.write cexEngine { z := 0, checksum := 0 } [9] 5
        Mode.SyncFlush)).map
      (fun w => Deflater.unflushedBytes cexEngine w.st.z) = some 1 ∧
    (some 1 : Option Nat) ≠ some 0 ∧
    ZEngineWF cexEngine := by
  refine ⟨by decide, by decide, cexEngine_wf⟩

/-- C9 (amended): after every successful sync-flush write whose last
engine call returned with output room to spare (`avail_out > 0`),
`unflushed_bytes()` is zero; in particular whenever the
guaranteed-fit sync-flush branch ran.  (A successful write whose final
flush filled the output completely may leave unflushed bytes.) -/
theorem deflate_sync_flush_unflushed {S : Type} (eng : ZEngine S)
    (hwf : ZEngineWF eng) (st : CodecState S) (input : List Nat) (outRem : Nat)
    (hin : input.length < 4294967296) (hout : outRem < 4294967296) :
    UnflushedZeroClaim eng (Deflater.write eng st input outRem Mode.SyncFlush) := by
  intro w hw hlast
  obtain ⟨fo, hfo, hz, htr, hfc, hdv, _, _, _⟩ := Deflater.write_sync hw
  obtain ⟨_, _, _, _, _, _, A7, A8⟩ := writeAndFlush_spec hwf hin hout hfo
  unfold Deflater.unflushedBytes
  rw [hz]
  cases hfin : fo.finalCall with
  | none => exact A7 hfin
  | some c =>
    refine A8 c hfin (hlast c ?_)
    unfold lastEngineCall
    rw [hfc, hfin]

/-- C9 amended, witness: a concrete conforming engine and write on which
the theorem's hypotheses hold (the pending count is zero afterwards). -/
theorem deflate_sync_flush_unflushed_witness :
    UnflushedZeroClaim copyEng
      (Deflater.write copyEng { z := (), checksum := 0 } [1, 2, 3] 200
        Mode.SyncFlush) :=
  deflate_sync_flush_unflushed copyEng copyEng_wf { z := (), checksum := 0 }
    [1, 2, 3] 200 (by decide) (by decide)

/-! ## C10: the output-nonempty assertion and the output cursor -/

/-- C10 counterexample: with non-empty output (5 bytes) a sync-flush
write can still trip the `Assert(outSize > 0)`: a conforming engine fills
the whole output in the conservative branch, the loop breaks with no
output room left, and the final zero-input sync-flush call asserts.
Also, a zero-length output with mode partial-flush is rejected as
`invalid_parameter`, not by the assertion. -/
theorem deflate_assert_reachable_nonempty_output :
    exErr? (Deflater.write cex2Engine { z := (), checksum := 0 } [1] 5
        Mode.SyncFlush) = some CError.assertionFailed ∧
    (5 : Nat) ≠ 0 ∧
    exErr? (Deflater.write cex2Engine { z := (), checksum := 0 } [1] 0
        Mode.PartialFlush) = some CError.invalidParameter ∧
    CError.invalidParameter ≠ CError.assertionFailed ∧
    ZEngineWF cex2Engine := by
  refine ⟨by decide, by decide, by decide, by decide, cex2Engine_wf⟩

/-- C10 (amended): a zero-length output slice trips the assertion for
every Inflater mode and for the Deflater's raw, no-flush and sync-flush
modes (partial-flush is rejected as `invalid_parameter` first); with a
non-empty output, raw and no-flush deflater writes and all inflater
writes never hit the assertion and advance the output cursor by exactly
the produced byte count, at most the output size; a successful sync-flush
write also advances the cursor by exactly the produced count (though with
non-empty output the final flush can still assert, see the
counterexample). -/
theorem codec_write_assertion_and_cursor {S : Type} (eng : ZEngine S)
    (hwf : ZEngineWF eng) (st : CodecState S) (input : List Nat)
    (outRem : Nat) (m : Mode) :
    (m ≠ Mode.PartialFlush →
       exErr? (Deflater.write eng st input 0 m) =
         some CError.assertionFailed) ∧
    exErr? (Inflater.write eng st input 0 m) = some CError.assertionFailed ∧
    (0 < outRem → outRem < 4294967296 →
       CursorClaim outRem (Deflater.write eng st input outRem Mode.Raw) ∧
       CursorClaim outRem (Deflater.write eng st input outRem Mode.NoFlush) ∧
       CursorClaim outRem (Inflater.write eng st input outRem m) ∧
       (input.length < 4294967296 →
         ∀ w, Deflater.write eng st input outRem Mode.SyncFlush = Except.ok w →
           w.outRem + w.produced.length = outRem)) := by
  refine ⟨?_, ?_, ?_⟩
  · intro hm
    cases m with
    | Raw => simp [Deflater.write, writeRaw, exErr?]
    | NoFlush => simp [Deflater.write, zwrite, exErr?]
    | PartialFlush => exact absurd rfl hm
    | SyncFlush =>
      simp [Deflater.write, writeAndFlush_zero_out, exErr?]
  · cases m with
    | Raw => simp [Inflater.write, writeRaw, exErr?]
    | NoFlush => simp [Inflater.write, zwrite, exErr?]
    | PartialFlush => simp [Inflater.write, zwrite, exErr?]
    | SyncFlush => simp [Inflater.write, zwrite, exErr?]
  · intro h0 hlt
    have hraw : CursorClaim outRem
        (Deflater.write eng st input outRem Mode.Raw) := by
      constructor
      · simp [Deflater.write, writeRaw, Nat.pos_iff_ne_zero.mp h0, exErr?]
      · intro w hw
        simp only [Deflater.write, writeRaw,
          if_neg (Nat.pos_iff_ne_zero.mp h0)] at hw
        simp only [Except.ok.injEq] at hw
        subst hw
        dsimp only
        have hc : min input.length outRem ≤ outRem := Nat.min_le_right _ _
        constructor
        · simp only [List.length_take]
          omega
        · simp only [List.length_take]
          omega
    have hnof : CursorClaim outRem
        (Deflater.write eng st input outRem Mode.NoFlush) := by
      obtain ⟨hz1, hz2⟩ := zwrite_cursor hwf st.z input outRem Mode.NoFlush
        sizeMax h0 hlt (by simp)
      constructor
      · simp only [Deflater.write]
        cases hzz : zwrite eng st.z input outRem Mode.NoFlush sizeMax with
        | error e =>
          rw [hzz] at hz1
          simpa [exErr?] using hz1
        | ok w => simp [exErr?]
      · intro w hw
        simp only [Deflater.write] at hw
        cases hzz : zwrite eng st.z input outRem Mode.NoFlush sizeMax with
        | error e =>
          rw [hzz] at hw
          exact absurd hw (by simp)
        | ok w1 =>
          rw [hzz] at hw
          simp only [Except.ok.injEq] at hw
          subst hw
          dsimp only
          exact hz2 w1 hzz
    have hinf : CursorClaim outRem (Inflater.write eng st input outRem m) := by
      cases m with
      | Raw =>
        constructor
        · simp [Inflater.write, writeRaw, Nat.pos_iff_ne_zero.mp h0, exErr?]
        · intro w hw
          simp only [Inflater.write, writeRaw,
            if_neg (Nat.pos_iff_ne_zero.mp h0)] at hw
          simp only [Except.ok.injEq] at hw
          subst hw
          dsimp only
          constructor
          · simp only [List.length_take]
            omega
          · simp only [List.length_take]
            omega
      | NoFlush =>
        obtain ⟨hz1, hz2⟩ := zwrite_cursor hwf st.z input outRem Mode.NoFlush
          sizeMax h0 hlt (by simp)
        constructor
        · simp only [Inflater.write]
          cases hzz : zwrite eng st.z input outRem Mode.NoFlush sizeMax with
          | error e =>
            rw [hzz] at hz1
            simpa [exErr?] using hz1
          | ok w => simp [exErr?]
        · intro w hw
          simp only [Inflater.write] at hw
          cases hzz : zwrite eng st.z input outRem Mode.NoFlush sizeMax with
          | error e =>
            rw [hzz] at hw
            exact absurd hw (by simp)
          | ok w1 =>
            rw [hzz] at hw
            simp only [Except.ok.injEq] at hw
            subst hw
            dsimp only
            exact hz2 w1 hzz
      | PartialFlush =>
        obtain ⟨hz1, hz2⟩ := zwrite_cursor hwf st.z input outRem
          Mode.PartialFlush sizeMax h0 hlt (by simp)
        constructor
        · simp only [Inflater.write]
          cases hzz : zwrite eng st.z input outRem Mode.PartialFlush sizeMax with
          | error e =>
            rw [hzz] at hz1
            simpa [exErr?] using hz1
          | ok w => simp [exErr?]
        · intro w hw
          simp only [Inflater.write] at hw
          cases hzz : zwrite eng st.z input outRem Mode.PartialFlush sizeMax with
          | error e =>
            rw [hzz] at hw
            exact absurd hw (by simp)
          | ok w1 =>
            rw [hzz] at hw
            simp only [Except.ok.injEq] at hw
            subst hw
            dsimp only
            exact hz2 w1 hzz
      | SyncFlush =>
        obtain ⟨hz1, hz2⟩ := zwrite_cursor hwf st.z input outRem
          Mode.SyncFlush sizeMax h0 hlt (by simp)
        constructor
        · simp only [Inflater.write]
          cases hzz : zwrite eng st.z input outRem Mode.SyncFlush sizeMax with
          | error e =>
            rw [hzz] at hz1
            simpa [exErr?] using hz1
          | ok w => simp [exErr?]
        · intro w hw
          simp only [Inflater.write] at hw
          cases hzz : zwrite eng st.z input outRem Mode.SyncFlush sizeMax with
          | error e =>
            rw [hzz] at hw
            exact absurd hw (by simp)
          | ok w1 =>
            rw [hzz] at hw
            simp only [Except.ok.injEq] at hw
            subst hw
            dsimp only
            exact hz2 w1 hzz
    refine ⟨hraw, hnof, hinf, ?_⟩
    intro hinlt w hw
    obtain ⟨fo, hfo, _, _, _, _, hor, hpr, _⟩ := Deflater.write_sync hw
    obtain ⟨_, _, _, _, _, A6, _, _⟩ := writeAndFlush_spec hwf hinlt hlt hfo
    rw [hor, hpr]
    exact A6

/-- C10 amended, witness. -/
theorem codec_write_assertion_and_cursor_witness :
    CursorClaim 7 (Deflater.write copyEng { z := (), checksum := 0 } [1, 2]
      7 Mode.Raw) ∧
    exErr? (Inflater.write copyEng { z := (), checksum := 0 } [1, 2] 0
      Mode.NoFlush) = some CError.assertionFailed :=
  ⟨((codec_write_assertion_and_cursor copyEng copyEng_wf
      { z := (), checksum := 0 } [1, 2] 7 Mode.NoFlush).2.2 (by decide)
      (by decide)).1,
   (codec_write_assertion_and_cursor copyEng copyEng_wf
      { z := (), checksum := 0 } [1, 2] 7 Mode.NoFlush).2.1⟩

end LC
